import Mathlib

/-!
Verification of the parley Deferred (repository alexjv89/parley).

This development shallowly embeds the completion state machine of
`src/unnamed/part_001` (the most complete revision of `lib/private/Deferred.js`):
the `.exec()` entry point with its usage validation and userland spinlock, the
completion signal handed to the work function, the timeout alarm, the
synchronous-throw catch block with its escape-hatch envelope, error
normalization, `.now()`, `.toPromise()`/`.then()`/`.catch()` memoization, and
the `bindAfterExecLC` registration shared by `.intercept()`/`.tolerate()`.

JavaScript runtime values are modelled by the inductive `Val`, restricted to
the shapes the Deferred code actually inspects (truthiness, lodash
`_.isError`/`_.isObject`/`_.isString`/`_.isFunction`/`_.isArray`, the `cause`,
`name`, `code`, `raw` and `traceRef` properties).  Long advisory tails of
user-facing message strings are abbreviated to their first (load-bearing)
line; this is noted at each definition.
-/

/-- A JavaScript runtime value, restricted to the shapes inspected by the
Deferred code.  `errv` is a proper Error instance carrying the properties the
code reads (`name`, `message`, `code`, `raw`, `traceRef`); `objv` is a plain
non-Error object, possibly exposing a causal inner error via its `cause`
field; `funv` is a function (identified by an id); `arrv` is an array. -/
inductive Val where
  | undef : Val
  | nullv : Val
  | boolv (b : Bool) : Val
  | numv (n : Int) : Val
  | strv (s : String) : Val
  | errv (name : String) (message : String) (code : String)
      (raw : Option Val) (traceRef : Option Nat) : Val
  | objv (tag : String) (cause : Option Val) : Val
  | funv (id : Nat) : Val
  | arrv (tag : String) : Val

/-- JavaScript truthiness of a value. -/
def Val.truthy : Val → Bool
  | .undef => false
  | .nullv => false
  | .boolv b => b
  | .numv n => n != 0
  | .strv s => s != ""
  | _ => true

/-- Lodash `_.isError`. -/
def Val.isError : Val → Bool
  | .errv _ _ _ _ _ => true
  | _ => false

/-- Lodash `_.isString`. -/
def Val.isString : Val → Bool
  | .strv _ => true
  | _ => false

/-- Lodash `_.isObject`: objects, arrays and functions (but not null or
primitives). -/
def Val.isObject : Val → Bool
  | .errv _ _ _ _ _ => true
  | .objv _ _ => true
  | .funv _ => true
  | .arrv _ => true
  | _ => false

/-- Lodash `_.isFunction`. -/
def Val.isFunction : Val → Bool
  | .funv _ => true
  | _ => false

/-- Lodash `_.isArray`. -/
def Val.isArray : Val → Bool
  | .arrv _ => true
  | _ => false

/-- Strict comparison with `undefined` (`=== undefined`). -/
def Val.isUndef : Val → Bool
  | .undef => true
  | _ => false

/-- Property access `v.cause`: `undefined` unless the value is a plain object
carrying a cause field. -/
def Val.causeOf : Val → Val
  | .objv _ (some c) => c
  | _ => (.undef : Val)

/-- Property access `v.raw` (read off the escape-hatch envelope at
part_001 line 484): `undefined` unless the value is an Error carrying `raw`. -/
def Val.rawOf : Val → Val
  | .errv _ _ _ (some r) _ => r
  | _ => (.undef : Val)

/-- Property access `v.name` as a string (empty when absent). -/
def Val.nameOf : Val → String
  | .errv n _ _ _ _ => n
  | _ => ""

/-- Property access `v.message` as a string (empty when absent). -/
def Val.messageOf : Val → String
  | .errv _ m _ _ _ => m
  | _ => ""

/-- Property access `v.code` as a string (empty when absent). -/
def Val.codeOf : Val → String
  | .errv _ _ c _ _ => c
  | _ => ""

/-- Model of the external `util.inspect(value, depth d)`: a bounded-depth
textual rendering.  The precise text of Node.js is not reproduced; what the
code relies on is that the rendering is total (never throws) and explores
nested values only to the given depth, which this model makes structural. -/
def inspectDepth : Nat → Val → String
  | _, .undef => "undefined"
  | _, .nullv => "null"
  | _, .boolv b => if b then "true" else "false"
  | _, .numv n => toString n
  | _, .strv s => "(string " ++ s ++ ")"
  | _, .funv _ => "[Function]"
  | _, .errv n m _ _ _ => "[" ++ n ++ ": " ++ m ++ "]"
  | _, .arrv tag => "[array " ++ tag ++ "]"
  | 0, .objv _ _ => "[Object]"
  | _, .objv tag none => "[object " ++ tag ++ "]"
  | d + 1, .objv tag (some c) =>
      "[object " ++ tag ++ " cause: " ++ inspectDepth d c ++ "]"

/-- The rendering used by the Deferred for exotic failure values:
`util.inspect(err, depth: 5)` (part_001 lines 435 and 539). -/
def utilInspect (v : Val) : String := inspectDepth 5 v

/-- Failure normalization, shared verbatim between the completion signal
(part_001 lines 425-435) and the synchronous-throw catch block (lines
536-539):
an Error instance passes through; a non-Error object with a truthy `cause`
that is itself an Error is replaced by that cause; a string is wrapped as an
Error whose message is the string; anything else is wrapped as an Error whose
message is the bounded-depth rendering of the value.  The two `flaverr` wraps
attach the raw value as `raw` and take their stack from the omen (the omen
only affects the stack, which is not modelled). -/
def normalizeErr (err : Val) : Val :=
  if err.isError then err
  else if err.isObject && err.causeOf.truthy && err.causeOf.isError then
    err.causeOf
  else if err.isString then
    .errv "Error" (match err with | .strv s => s | _ => "") "" (some err) none
  else
    .errv "Error" (utilInspect err) "" (some err) none

example : normalizeErr (.strv "boom") =
    .errv "Error" "boom" "" (some (.strv "boom")) none := rfl
example : normalizeErr (.numv 7) =
    .errv "Error" "7" "" (some (.numv 7)) none := rfl
example :
    normalizeErr (.objv "wrapper" (some (.errv "Error" "inner" "" none none)))
      = .errv "Error" "inner" "" none none := rfl

/-- The per-instance completion state of a Deferred (the instance variables of
part_001: `_hasBegunExecuting`, `_hasFinishedExecuting`, `_hasTimedOut`,
`_skipImplSpinlockWarning`, `_hasAlreadyWaitedAtLeastOneTick`, plus whether the
`timeoutAlarm` of the current `.exec()` call is scheduled).  All fields start
out unset (JavaScript `undefined`, i.e. falsy); `hasAlreadyWaitedAtLeastOneTick`
is kept as `Option Bool` because the code distinguishes never-assigned from
assigned. -/
structure DeferredState where
  hasBegunExecuting : Bool := false
  hasFinishedExecuting : Bool := false
  hasTimedOut : Bool := false
  skipImplSpinlockWarning : Bool := false
  timerArmed : Bool := false
  hasAlreadyWaitedAtLeastOneTick : Option Bool := none
  deriving Repr, DecidableEq

/-- The timer-arming condition `if (self._timeout && self._timeout > 0)`
(part_001 line 328): the configured timeout must be truthy and strictly
positive.  `none` models an unset (`undefined`) `_timeout`. -/
def armTimer : Option Int → Bool
  | none => false
  | some n => (Val.numv n).truthy && decide (n > 0)

/-- The TimeoutError built when the alarm fires (part_001 lines 363-373):
`flaverr` with name `TimeoutError` and a message stating the configured
duration.  Only the first line of the advisory message is modelled; the
remaining guidance text is not load-bearing. -/
def timeoutError (n : Int) : Val :=
  .errv "TimeoutError"
    ("Took too long to finish executing (timeout of " ++ toString n
      ++ "ms exceeded.)\n")
    "" none none

/-- The escape-hatch envelope thrown by the callback wrapper `_tryToRunCb`
when the consumer callback throws during the first synchronous tick (part_001
lines 261-266): an Error with name `Envelope`, code `E_ESCAPE_HATCH`, a
`traceRef` back-reference to the owning Deferred (modelled by the Deferred id)
and the original consumer exception as `raw`. -/
def mkEnvelope (d : Nat) (v : Val) : Val :=
  .errv "Envelope" "" "E_ESCAPE_HATCH" (some v) (some d)

/-- The identity check performed by the catch block of `.exec()` (part_001
line 483): `e.name === 'Envelope' && e.code === 'E_ESCAPE_HATCH' &&
e.traceRef === self`. -/
def isEscapeEnvelopeFor (d : Nat) : Val → Bool
  | .errv name _ code _ (some tr) =>
      name == "Envelope" && code == "E_ESCAPE_HATCH" && tr == d
  | _ => false

/-- Outcome of one completion-pipeline step: the updated Deferred state,
the consumer-callback invocation it performed (with its argument list), if
any, whether it logged a diagnostic warning, and the value it rethrew
synchronously, if any. -/
structure HOut where
  st : DeferredState
  call : Option (List Val) := none
  warned : Bool := false
  thrown : Option Val := none

/-- The completion signal `done` handed to the work function by `.exec()`
(part_001 lines 385-474).  In order: the implementorland spinlock (warn on a
duplicate completion unless `_skipImplSpinlockWarning` is set), the silent
finish after a timeout, clearing the alarm, failure normalization and the
error callback, then the success callback (all arguments when extra arguments
were supplied, zero arguments for an undefined result, `(undefined, result)`
otherwise). -/
def handleSignal (st : DeferredState) (err result : Val) (extra : List Val) :
    HOut :=
  if st.hasFinishedExecuting && !st.skipImplSpinlockWarning then
    { st := st, warned := true }
  else if st.hasTimedOut then
    { st := { st with hasFinishedExecuting := true } }
  else
    let st := { st with timerArmed := false }
    if err.truthy then
      { st := { st with hasFinishedExecuting := true },
        call := some [normalizeErr err] }
    else
      let st := { st with hasFinishedExecuting := true }
      if !extra.isEmpty then { st := st, call := some ([err, result] ++ extra) }
      else if result.isUndef then { st := st, call := some [] }
      else { st := st, call := some [.undef, result] }

/-- The timeout alarm callback (part_001 lines 329-376): warn (and do nothing
further) when execution has already finished or the timeout has already been
triggered; otherwise mark `_hasTimedOut` and route a TimeoutError to the
consumer callback.  Note that the alarm does not mark
`_hasFinishedExecuting`. -/
def handleTimeout (n : Int) (st : DeferredState) : HOut :=
  if st.hasFinishedExecuting then { st := st, warned := true }
  else if st.hasTimedOut then { st := st, warned := true }
  else
    { st := { st with hasTimedOut := true }, call := some [timeoutError n] }

/-- The catch block of `.exec()` handling a value thrown synchronously by the
work function (part_001 lines 477-574).  In order: rethrow the raw consumer
exception when the capture is this Deferred's own escape-hatch envelope; warn
and stop when already finished; warn, mark finished and stop when already
timed out; otherwise clear the alarm, normalize the thrown value, mark
finished and invoke the consumer callback with the normalized error. -/
def handleSyncThrow (d : Nat) (st : DeferredState) (e : Val) : HOut :=
  if isEscapeEnvelopeFor d e then
    { st := st, thrown := some e.rawOf }
  else if st.hasFinishedExecuting then
    { st := st, warned := true }
  else if st.hasTimedOut then
    { st := { st with hasFinishedExecuting := true }, warned := true }
  else
    { st := { st with timerArmed := false, hasFinishedExecuting := true },
      call := some [normalizeErr e] }

/-- A completion attempt on an executing Deferred: one invocation of the
completion signal by the work function, the timeout alarm firing, or the work
function throwing synchronously. -/
inductive Event where
  | signal (err result : Val) (extra : List Val) : Event
  | timeoutFires : Event
  | syncThrow (e : Val) : Event

/-- Dispatch one completion attempt to its handler.  `d` is the Deferred's
identity (for the envelope check) and `n` the configured timeout duration
read by the alarm callback. -/
def stepEvent (d : Nat) (n : Int) (st : DeferredState) : Event → HOut
  | .signal err result extra => handleSignal st err result extra
  | .timeoutFires => handleTimeout n st
  | .syncThrow e => handleSyncThrow d st e

/-- Accumulated observation of a sequence of completion attempts. -/
structure RunOut where
  st : DeferredState
  calls : List (List Val)
  warns : Nat

/-- Process a sequence of completion attempts, accumulating the consumer
callback invocations and diagnostic warnings they produce. -/
def runEvents (d : Nat) (n : Int) (st : DeferredState) :
    List Event → RunOut
  | [] => { st := st, calls := [], warns := 0 }
  | e :: rest =>
    let h := stepEvent d n st e
    let r := runEvents d n h.st rest
    { st := r.st, calls := h.call.toList ++ r.calls,
      warns := (if h.warned then 1 else 0) + r.warns }

/-- The Deferred state right after `.exec()` passes validation and the
userland spinlock on a fresh instance: `_hasBegunExecuting` is set (part_001
line 321) and the alarm is scheduled iff the configured timeout is truthy and
positive (line 328). -/
def execStartState (t : Option Int) : DeferredState :=
  { hasBegunExecuting := true, timerArmed := armTimer t }

/-- Whether a completion attempt is a synchronous throw of this very
Deferred's own escape-hatch envelope (such an attempt can only arise from the
consumer callback having already been invoked and having thrown). -/
def isSelfEnvelopeThrow (d : Nat) : Event → Bool
  | .syncThrow e => isEscapeEnvelopeFor d e
  | _ => false

/-- Whether the authoritative completion outcome of this Deferred has been
decided (it has finished executing or has timed out). -/
def DeferredState.settled (st : DeferredState) : Bool :=
  st.hasFinishedExecuting || st.hasTimedOut

lemma stepEvent_skip (d : Nat) (n : Int) (st : DeferredState) (e : Event) :
    (stepEvent d n st e).st.skipImplSpinlockWarning
      = st.skipImplSpinlockWarning := by
  cases e <;>
    simp only [stepEvent, handleSignal, handleTimeout, handleSyncThrow] <;>
    repeat' first
      | rfl
      | split

lemma stepEvent_settled_mono (d : Nat) (n : Int) (st : DeferredState)
    (e : Event) (h : st.settled = true) :
    (stepEvent d n st e).st.settled = true := by
  rcases Bool.or_eq_true_iff.mp h with hf | ht <;>
    cases e <;>
    simp only [stepEvent, handleSignal, handleTimeout, handleSyncThrow,
      DeferredState.settled] <;>
    repeat' first
      | simp [hf]
      | simp [ht]
      | split

lemma stepEvent_silent (d : Nat) (n : Int) (st : DeferredState) (e : Event)
    (h : st.settled = true) (hs : st.skipImplSpinlockWarning = false) :
    (stepEvent d n st e).call = none := by
  rcases Bool.or_eq_true_iff.mp h with hf | ht <;>
    cases e <;>
    simp only [stepEvent, handleSignal, handleTimeout, handleSyncThrow] <;>
    repeat' first
      | simp [hf, hs]
      | simp [ht]
      | split

lemma runEvents_silent (d : Nat) (n : Int) (st : DeferredState)
    (evts : List Event) (h : st.settled = true)
    (hs : st.skipImplSpinlockWarning = false) :
    (runEvents d n st evts).calls = [] := by
  induction evts generalizing st with
  | nil => rfl
  | cons e rest ih =>
    simp only [runEvents]
    rw [stepEvent_silent d n st e h hs]
    simp [ih _ (stepEvent_settled_mono d n st e h)
      ((stepEvent_skip d n st e).trans hs)]

lemma stepEvent_emits (d : Nat) (n : Int) (st : DeferredState) (e : Event)
    (h : st.settled = false) (he : isSelfEnvelopeThrow d e = false) :
    (∃ args, (stepEvent d n st e).call = some args) ∧
      (stepEvent d n st e).st.settled = true := by
  have hf : st.hasFinishedExecuting = false := by
    have := h; unfold DeferredState.settled at this; simp at this; exact this.1
  have ht : st.hasTimedOut = false := by
    have := h; unfold DeferredState.settled at this; simp at this; exact this.2
  cases e with
  | signal err result extra =>
    simp only [stepEvent, handleSignal, hf, ht, DeferredState.settled]
    repeat' first
      | simp
      | split
  | timeoutFires =>
    simp [stepEvent, handleTimeout, hf, ht, DeferredState.settled]
  | syncThrow v =>
    simp only [isSelfEnvelopeThrow] at he
    simp [stepEvent, handleSyncThrow, hf, ht, he, DeferredState.settled]

/-- C1: once `.exec()` has been entered with a valid callback, whichever of
the completion attempts on this Deferred happens first (a completion signal
from the work function, the timeout alarm firing, or a synchronous throw by
the work function) is the one that invokes the consumer callback, and the
whole sequence of attempts invokes the consumer callback exactly once in
total, regardless of how many later attempts occur and whether a timeout is
configured.  (A synchronous throw of this Deferred's own escape-hatch
envelope is excluded from the quantification: such a throw can only arise
from the consumer callback itself having already been invoked, the case
settled by the C3 theorem.) -/
theorem C1_exec_invokes_callback_exactly_once (d : Nat) (n : Int)
    (t : Option Int) (e : Event) (rest : List Event)
    (he : isSelfEnvelopeThrow d e = false) :
    (runEvents d n (execStartState t) (e :: rest)).calls
        = (stepEvent d n (execStartState t) e).call.toList ∧
      (runEvents d n (execStartState t) (e :: rest)).calls.length = 1 := by
  have hstart : (execStartState t).settled = false := rfl
  have hskip : (execStartState t).skipImplSpinlockWarning = false := rfl
  obtain ⟨⟨args, hargs⟩, hsettled⟩ := stepEvent_emits d n _ e hstart he
  have hsilent := runEvents_silent d n _ rest hsettled
    ((stepEvent_skip d n _ e).trans hskip)
  constructor
  · simp [runEvents, hsilent]
  · simp [runEvents, hsilent, hargs]

theorem C1_exec_invokes_callback_exactly_once_witness :
    (runEvents 0 5 (execStartState (some 5))
        [Event.signal (.strv "boom") .undef [],
         Event.signal .undef (.numv 42) [],
         Event.timeoutFires]).calls.length = 1 :=
  (C1_exec_invokes_callback_exactly_once 0 5 (some 5)
      (Event.signal (.strv "boom") .undef [])
      [Event.signal .undef (.numv 42) [], Event.timeoutFires] rfl).2

/-- C4: the race timer is armed iff the configured timeout is a number
strictly greater than 0 (0 or a falsy/unset value disables it); when the
alarm fires before the outcome is decided it marks `hasTimedOut` and the
whole sequence of completion attempts invokes the consumer callback exactly
once, with a TimeoutError whose message states the configured duration in
milliseconds; and a completion signal arriving after the timeout has been
decided marks the Deferred finished and silently stops, with no callback and
no warning. -/
theorem C4_timeout_race (d : Nat) (n : Int) (t : Option Int)
    (st : DeferredState) (err result : Val) (extra : List Val)
    (rest : List Event)
    (hf : st.hasFinishedExecuting = false) (ht : st.hasTimedOut = true) :
    (armTimer t = true ↔ ∃ m : Int, t = some m ∧ 0 < m) ∧
      (runEvents d n (execStartState t) (Event.timeoutFires :: rest)).calls
        = [[timeoutError n]] ∧
      (timeoutError n).nameOf = "TimeoutError" ∧
      (∃ pre post, (timeoutError n).messageOf
        = pre ++ (toString n ++ "ms") ++ post) ∧
      handleSignal st err result extra
        = { st := { st with hasFinishedExecuting := true }, call := none,
            warned := false, thrown := none } := by
  refine ⟨?_, ?_, rfl, ?_, ?_⟩
  · cases t with
    | none => simp [armTimer]
    | some m =>
      simp only [armTimer, Val.truthy, Bool.and_eq_true, decide_eq_true_eq,
        bne_iff_ne, ne_eq, Option.some.injEq]
      constructor
      · rintro ⟨-, hm⟩; exact ⟨m, rfl, hm⟩
      · rintro ⟨m', hm', hpos⟩; cases hm'; omega
  · have hstart : (execStartState t).settled = false := rfl
    have hskip : (execStartState t).skipImplSpinlockWarning = false := rfl
    have hsettled : (stepEvent d n (execStartState t) .timeoutFires).st.settled
        = true := by
      simp [stepEvent, handleTimeout, execStartState, DeferredState.settled]
    have hsilent := runEvents_silent d n _ rest hsettled
      ((stepEvent_skip d n _ .timeoutFires).trans hskip)
    simp [stepEvent, handleTimeout, execStartState] at hsilent
    simp [runEvents, stepEvent, handleTimeout, execStartState, hsilent]
  · refine ⟨"Took too long to finish executing (timeout of ",
      " exceeded.)\n", ?_⟩
    have hms : ("ms" ++ " exceeded.)\n" : String) = "ms exceeded.)\n" := rfl
    simp [timeoutError, Val.messageOf, String.append_assoc, hms]
  · simp [handleSignal, hf, ht]

theorem C4_timeout_race_witness :
    (runEvents 0 30 (execStartState (some 30)) [Event.timeoutFires]).calls
        = [[timeoutError 30]] ∧
      handleSignal ⟨true, false, true, false, true, none⟩
          (.strv "late") .undef []
        = ⟨⟨true, true, true, false, true, none⟩, none, false, none⟩ := by
  have h := C4_timeout_race 0 30 (some 30)
    ⟨true, false, true, false, true, none⟩
    (.strv "late") .undef [] [] rfl rfl
  exact ⟨h.2.1, h.2.2.2.2⟩

/-- C10: when the work function signals success (falsy error) with an
undefined result and no extra arguments, the consumer callback is invoked
with zero arguments; when the result is a defined value and there are no
extra arguments, the callback is invoked as `(undefined, result)` (part_001
lines 455-472). -/
theorem C10_success_callback_arity (st : DeferredState) (err r : Val)
    (hf : st.hasFinishedExecuting = false) (ht : st.hasTimedOut = false)
    (he : err.truthy = false) :
    (handleSignal st err .undef []).call = some [] ∧
      (r.isUndef = false →
        (handleSignal st err r []).call = some [.undef, r]) := by
  constructor
  · simp [handleSignal, hf, ht, he, Val.isUndef]
  · intro hr
    simp [handleSignal, hf, ht, he, hr]

theorem C10_success_callback_arity_witness :
    (handleSignal ⟨true, false, false, false, false, none⟩
        .nullv .undef []).call = some [] ∧
      (handleSignal ⟨true, false, false, false, false, none⟩
        .nullv (.numv 42) []).call = some [.undef, .numv 42] := by
  have h := C10_success_callback_arity
    ⟨true, false, false, false, false, none⟩ .nullv (.numv 42) rfl rfl rfl
  exact ⟨h.1, h.2 rfl⟩

/-- C5: the failure normalization, applied identically to a raw failure value
arriving through the completion signal and to one thrown synchronously by the
work function, satisfies case by case: a proper Error passes through
unchanged; a non-Error value exposing a truthy causal inner error that is
itself a proper Error is replaced by that inner error; a string is wrapped as
an Error whose message is that string; any other value is wrapped as an Error
whose message is the bounded-depth textual rendering of the value (a total
function, so wrapping never throws).  The last two conjuncts show the same
normalization wired into both completion paths. -/
theorem C5_error_normalization (d : Nat) (v w x : Val) (s : String)
    (st st' : DeferredState) (e e' r : Val) (extra : List Val)
    (hvErr : v.isError = true)
    (hwErr : w.isError = false) (hwObj : w.isObject = true)
    (hwCt : w.causeOf.truthy = true) (hwCe : w.causeOf.isError = true)
    (hxErr : x.isError = false)
    (hxCause : (x.isObject && x.causeOf.truthy && x.causeOf.isError) = false)
    (hxStr : x.isString = false)
    (hf : st.hasFinishedExecuting = false) (ht : st.hasTimedOut = false)
    (heTr : e.truthy = true)
    (hf' : st'.hasFinishedExecuting = false) (ht' : st'.hasTimedOut = false)
    (henv : isEscapeEnvelopeFor d e' = false) :
    normalizeErr v = v ∧
      normalizeErr w = w.causeOf ∧
      normalizeErr (.strv s) = .errv "Error" s "" (some (.strv s)) none ∧
      normalizeErr x = .errv "Error" (utilInspect x) "" (some x) none ∧
      (handleSignal st e r extra).call = some [normalizeErr e] ∧
      (handleSyncThrow d st' e').call = some [normalizeErr e'] := by
  refine ⟨?_, ?_, ?_, ?_, ?_, ?_⟩
  · simp [normalizeErr, hvErr]
  · simp [normalizeErr, hwErr, hwObj, hwCt, hwCe]
  · simp [normalizeErr, Val.isError, Val.isString, Val.isObject]
  · simp [normalizeErr, hxErr, hxCause, hxStr]
  · simp [handleSignal, hf, ht, heTr]
  · simp [handleSyncThrow, henv, hf', ht']

theorem C5_error_normalization_witness :
    normalizeErr (.errv "RangeError" "oops" "" none none)
        = .errv "RangeError" "oops" "" none none ∧
      normalizeErr (.objv "awaited" (some (.errv "Error" "root" "E_X" none none)))
        = .errv "Error" "root" "E_X" none none ∧
      normalizeErr (.strv "boom")
        = .errv "Error" "boom" "" (some (.strv "boom")) none ∧
      normalizeErr (.numv 7)
        = .errv "Error" "7" "" (some (.numv 7)) none ∧
      (handleSignal ⟨true, false, false, false, false, none⟩
        (.strv "bad") .undef []).call = some [normalizeErr (.strv "bad")] ∧
      (handleSyncThrow 0 ⟨true, false, false, false, false, none⟩
        (.numv 3)).call = some [normalizeErr (.numv 3)] := by
  have h := C5_error_normalization 0
    (.errv "RangeError" "oops" "" none none)
    (.objv "awaited" (some (.errv "Error" "root" "E_X" none none)))
    (.numv 7) "boom"
    ⟨true, false, false, false, false, none⟩
    ⟨true, false, false, false, false, none⟩
    (.strv "bad") (.numv 3) .undef []
    rfl rfl rfl rfl rfl rfl rfl rfl rfl rfl rfl rfl rfl rfl
  exact h

/-- The UsageError thrown when `.exec()` gets no callback (part_001 lines
119-127).  Message abbreviated to its first line. -/
def usageErrNoCallback : Val :=
  .errv "UsageError"
    "No callback supplied. Please provide a callback function when calling .exec()."
    "" none none

/-- The UsageError thrown when `.exec()` gets a dictionary (a non-array
object) instead of a callback (part_001 lines 130-141).  Message abbreviated:
the original suggests calling .switch() for an intended switchback. -/
def usageErrSwitchback : Val :=
  .errv "UsageError"
    "Cannot handle a dictionary of callbacks here; if a switchback was intended, call .switch() instead of .exec()."
    "" none none

/-- The UsageError thrown when `.exec()` gets any other non-callable callback
(part_001 lines 142-153).  Message abbreviated to its operative line. -/
def usageErrBadCallback : Val :=
  .errv "UsageError"
    "Cannot handle a callback like that; please provide a callback function when calling .exec()."
    "" none none

/-- Behavior of the work function during the first synchronous tick of
`.exec()`: the completion-signal invocations it performs in order (each an
error, a result and the extra arguments beyond them), and optionally a value
it then throws before returning.  `signals = []` with `thenThrows = none`
models work that defers to a later tick. -/
structure WorkSyncBehavior where
  signals : List (Val × Val × List Val)
  thenThrows : Option Val := none

/-- Drive the work function's synchronous completion-signal invocations
through the `done` handler.  `cbT args` is the value thrown by the consumer
callback when invoked with `args` (`none` when it returns normally); a
throwing consumer callback during this first tick makes the wrapper
`_tryToRunCb` throw the escape-hatch envelope (part_001 lines 257-267), which
aborts the remainder of the work function.  Returns the final state, the
consumer-callback invocations performed, the warning count, and the escaped
envelope, if any. -/
def runSyncSignals (d : Nat) (cbT : List Val → Option Val) :
    DeferredState → List (Val × Val × List Val) →
      DeferredState × List (List Val) × Nat × Option Val
  | st, [] => (st, [], 0, none)
  | st, (e, r, ex) :: rest =>
    let h := handleSignal st e r ex
    let w := if h.warned then 1 else 0
    match h.call with
    | none =>
      match runSyncSignals d cbT h.st rest with
      | (st', cs, ws, esc) => (st', cs, w + ws, esc)
    | some args =>
      match cbT args with
      | none =>
        match runSyncSignals d cbT h.st rest with
        | (st', cs, ws, esc) => (st', args :: cs, w + ws, esc)
      | some v => (h.st, [args], w, some (mkEnvelope d v))

/-- Observable outcome of one `.exec()` call: the final Deferred state, the
consumer-callback invocations performed during the synchronous tick, the
number of diagnostic warnings, the value thrown synchronously out of
`.exec()` (if any), and whether the work function was invoked. -/
structure ExecOutcome where
  st : DeferredState
  calls : List (List Val)
  warns : Nat
  thrown : Option Val
  workInvoked : Bool

/-- One call to `.exec(cb)` (part_001 lines 113-590).  In order: usage
validation of the callback (lines 119-154; the optional second argument is
not modelled — the claims concern calls without it); the userland spinlock
(lines 303-321); setting `_hasBegunExecuting` and scheduling the alarm (lines
321-377); running the work function with the `done` signal inside the failure
boundary (lines 383-574), where an escape-hatch envelope or a synchronous
throw lands in the catch block (`handleSyncThrow`); finally recording
`_hasAlreadyWaitedAtLeastOneTick` (lines 576-587), which is skipped on every
path that leaves `.exec()` by a throw or by a return from inside the catch
block. -/
def execModel (d : Nat) (t : Option Int) (st0 : DeferredState) (cb : Val)
    (cbT : List Val → Option Val) (w : WorkSyncBehavior) : ExecOutcome :=
  if cb.isUndef then
    { st := st0, calls := [], warns := 0,
      thrown := some usageErrNoCallback, workInvoked := false }
  else if !cb.isFunction then
    if !cb.isArray && cb.isObject then
      { st := st0, calls := [], warns := 0,
        thrown := some usageErrSwitchback, workInvoked := false }
    else
      { st := st0, calls := [], warns := 0,
        thrown := some usageErrBadCallback, workInvoked := false }
  else if st0.hasBegunExecuting then
    { st := st0, calls := [], warns := 1, thrown := none,
      workInvoked := false }
  else
    let st1 : DeferredState :=
      { st0 with hasBegunExecuting := true, timerArmed := armTimer t }
    match runSyncSignals d cbT st1 w.signals with
    | (st2, cs, ws, some env) =>
      let h := handleSyncThrow d st2 env
      { st := h.st, calls := cs ++ h.call.toList,
        warns := ws + (if h.warned then 1 else 0), thrown := h.thrown,
        workInvoked := true }
    | (st2, cs, ws, none) =>
      match w.thenThrows with
      | none =>
        let fin := st2.hasFinishedExecuting
        { st := { st2 with hasAlreadyWaitedAtLeastOneTick := some (!fin) },
          calls := cs, warns := ws, thrown := none, workInvoked := true }
      | some e =>
        let h := handleSyncThrow d st2 e
        match h.thrown with
        | some raw =>
          { st := h.st, calls := cs, warns := ws, thrown := some raw,
            workInvoked := true }
        | none =>
          match h.call with
          | none =>
            { st := h.st, calls := cs,
              warns := ws + (if h.warned then 1 else 0), thrown := none,
              workInvoked := true }
          | some args =>
            match cbT args with
            | some v =>
              { st := h.st, calls := cs ++ [args], warns := ws,
                thrown := some (mkEnvelope d v), workInvoked := true }
            | none =>
              { st := h.st, calls := cs ++ [args], warns := ws,
                thrown := none, workInvoked := true }

example :
    (execModel 0 none {} (.funv 1) (fun _ => none)
      ⟨[(.undef, .numv 42, [])], none⟩).calls = [[.undef, .numv 42]] := rfl
example :
    (execModel 0 none {} (.funv 1) (fun _ => none)
      ⟨[(.undef, .numv 42, [])], none⟩).st.hasAlreadyWaitedAtLeastOneTick
      = some false := rfl
example :
    (execModel 0 none {} (.funv 1) (fun _ => none)
      ⟨[], none⟩).st.hasAlreadyWaitedAtLeastOneTick = some true := rfl

lemma isUndef_funv (k : Nat) : (Val.funv k).isUndef = false := rfl

lemma isFunction_funv (k : Nat) : (Val.funv k).isFunction = true := rfl

lemma isEscapeEnvelopeFor_mkEnvelope_self (d : Nat) (v : Val) :
    isEscapeEnvelopeFor d (mkEnvelope d v) = true := by
  simp [isEscapeEnvelopeFor, mkEnvelope]

lemma rawOf_mkEnvelope (d : Nat) (v : Val) : (mkEnvelope d v).rawOf = v := rfl

lemma isError_mkEnvelope (d : Nat) (v : Val) :
    (mkEnvelope d v).isError = true := rfl

/-- C3: on a fresh Deferred whose work function completes synchronously and
whose consumer callback then throws a value `V` in that same first tick (no
secondary uncaught-exception handler supplied), `.exec()` rethrows `V` itself
unmodified — it is not normalized, not reported as a work failure, and the
consumer callback is invoked only that one time.  The last three conjuncts
show the envelope's identity matching: an escape-hatch envelope whose
`traceRef` is this Deferred has its raw value rethrown, while an envelope
tied to a different Deferred is not unwrapped — being an Error, it travels
through the normal failure path to the consumer callback unchanged. -/
theorem C3_consumer_throw_rethrown_raw (d dOther : Nat) (t : Option Int)
    (V e r : Val) (ex : List Val) (k : Nat) (hne : (dOther == d) = false) :
    (execModel d t {} (.funv k) (fun _ => some V) ⟨[(e, r, ex)], none⟩).thrown
        = some V ∧
      (execModel d t {} (.funv k) (fun _ => some V)
        ⟨[(e, r, ex)], none⟩).calls.length = 1 ∧
      (execModel d t {} (.funv k) (fun _ => some V)
        ⟨[(e, r, ex)], none⟩).st.hasFinishedExecuting = true ∧
      (execModel d t {} (.funv k) (fun _ => none)
        ⟨[], some (mkEnvelope d V)⟩).thrown = some V ∧
      (execModel d t {} (.funv k) (fun _ => none)
        ⟨[], some (mkEnvelope dOther V)⟩).thrown = none ∧
      (execModel d t {} (.funv k) (fun _ => none)
        ⟨[], some (mkEnvelope dOther V)⟩).calls = [[mkEnvelope dOther V]] := by
  have henv' : isEscapeEnvelopeFor d (mkEnvelope dOther V) = false := by
    simp [isEscapeEnvelopeFor, mkEnvelope, hne]
  refine ⟨?_, ?_, ?_, ?_, ?_, ?_⟩
  · cases he : e.truthy <;> cases hex : ex.isEmpty <;> cases hr : r.isUndef <;>
      simp [execModel, runSyncSignals, handleSignal, handleSyncThrow,
        isUndef_funv, isFunction_funv, isEscapeEnvelopeFor_mkEnvelope_self,
        rawOf_mkEnvelope, he, hex, hr]
  · cases he : e.truthy <;> cases hex : ex.isEmpty <;> cases hr : r.isUndef <;>
      simp [execModel, runSyncSignals, handleSignal, handleSyncThrow,
        isUndef_funv, isFunction_funv, isEscapeEnvelopeFor_mkEnvelope_self,
        rawOf_mkEnvelope, he, hex, hr]
  · cases he : e.truthy <;> cases hex : ex.isEmpty <;> cases hr : r.isUndef <;>
      simp [execModel, runSyncSignals, handleSignal, handleSyncThrow,
        isUndef_funv, isFunction_funv, isEscapeEnvelopeFor_mkEnvelope_self,
        rawOf_mkEnvelope, he, hex, hr]
  · simp [execModel, runSyncSignals, handleSyncThrow, isUndef_funv,
      isFunction_funv, isEscapeEnvelopeFor_mkEnvelope_self, rawOf_mkEnvelope]
  · simp [execModel, runSyncSignals, handleSyncThrow, isUndef_funv,
      isFunction_funv, henv', normalizeErr, isError_mkEnvelope]
  · simp [execModel, runSyncSignals, handleSyncThrow, isUndef_funv,
      isFunction_funv, henv', normalizeErr, isError_mkEnvelope]

theorem C3_consumer_throw_rethrown_raw_witness :
    (execModel 1 none {} (.funv 0) (fun _ => some (.strv "userland bug"))
        ⟨[(.undef, .numv 42, [])], none⟩).thrown = some (.strv "userland bug") ∧
      (execModel 1 none {} (.funv 0) (fun _ => some (.strv "userland bug"))
        ⟨[(.undef, .numv 42, [])], none⟩).calls.length = 1 := by
  have h := C3_consumer_throw_rethrown_raw 1 2 none
    (.strv "userland bug") .undef (.numv 42) [] 0 rfl
  exact ⟨h.1, h.2.1⟩

/-- C7: calling `.exec()` a second time on the same Deferred (with a valid
callback) hits the userland spinlock (part_001 lines 303-321): it emits one
diagnostic warning and returns — the work function is not re-invoked, the
consumer callback is never invoked by this call, nothing is thrown, and the
Deferred's state (hence the outcome of the first call) is left unchanged. -/
theorem C7_second_exec_is_noop (d : Nat) (t : Option Int)
    (st : DeferredState) (cb : Val) (cbT : List Val → Option Val)
    (w : WorkSyncBehavior) (hcb : cb.isFunction = true)
    (hb : st.hasBegunExecuting = true) :
    execModel d t st cb cbT w
      = { st := st, calls := [], warns := 1, thrown := none,
          workInvoked := false } := by
  cases cb <;> simp_all [execModel, Val.isFunction, Val.isUndef]

theorem C7_second_exec_is_noop_witness :
    execModel 0 none
        ⟨true, true, false, false, false, some false⟩ (.funv 3)
        (fun _ => none) ⟨[(.undef, .numv 1, [])], none⟩
      = { st := ⟨true, true, false, false, false, some false⟩, calls := [],
          warns := 1, thrown := none, workInvoked := false } :=
  C7_second_exec_is_noop 0 none ⟨true, true, false, false, false, some false⟩
    (.funv 3) (fun _ => none) ⟨[(.undef, .numv 1, [])], none⟩ rfl rfl

/-- The UsageError for an invalid handler argument to `.intercept()` or
`.tolerate()` (part_001 lines 701-709).  Message abbreviated (the original
interpolates the lifecycle type). -/
def usageErrBadHandler : Val :=
  .errv "UsageError" "Invalid usage. Provided handler function is invalid."
    "" none none

/-- The UsageError for `.intercept()` called without a handler (part_001
lines 711-719).  Message abbreviated. -/
def usageErrNoHandler : Val :=
  .errv "UsageError"
    "Invalid usage of .intercept(). No handler function provided."
    "" none none

/-- The UsageError for an invalid error negotiation rule (part_001 lines
732-740).  Message abbreviated (the original interpolates the rule). -/
def usageErrBadRule : Val :=
  .errv "UsageError" "Invalid usage. Invalid error negotiation rule."
    "" none none

/-- A registered after-exec lifecycle rule as pushed onto
`_userlandAfterExecLCs` by `bindAfterExecLC` (part_001 lines 751-756):
the lifecycle type (`intercept` or `tolerate`), the negotiation rule and the
handler (`undef` when absent). -/
structure LCReg where
  type : String
  rule : Val
  handler : Val

/-- The shared registration logic of `.intercept()` and `.tolerate()`
(`bindAfterExecLC`, part_001 lines 687-766): resolve the variadic arguments
(a lone function argument is the wildcard handler, otherwise the first
argument is the negotiation rule and the second the handler); then validate —
a defined non-function handler is a usage error, a missing handler is a usage
error for `intercept`, and a defined negotiation rule must be a non-empty
string or a plain dictionary (a non-array, non-function object — the
unimplemented structured-rule branch at lines 727-731, accepted without
further checks); finally push the rule.  Returns the updated rule list, or
the thrown usage error. -/
def bindAfterExecLCVal (lcType : String) (a1 a2 : Val) (regs : List LCReg) :
    Except Val (List LCReg) :=
  let handler := if a1.isFunction && a2.isUndef then a1 else a2
  let rule := if a1.isFunction && a2.isUndef then Val.undef else a1
  if !handler.isUndef && !handler.isFunction then
    .error usageErrBadHandler
  else if handler.isUndef && lcType == "intercept" then
    .error usageErrNoHandler
  else if rule.isUndef then
    .ok (regs ++ [⟨lcType, rule, handler⟩])
  else if rule.isString && rule.truthy then
    .ok (regs ++ [⟨lcType, rule, handler⟩])
  else if rule.isObject && !rule.isArray && !rule.isFunction then
    .ok (regs ++ [⟨lcType, rule, handler⟩])
  else
    .error usageErrBadRule

example :
    bindAfterExecLCVal "tolerate" (.strv "E_FOO") (.funv 2) []
      = .ok [⟨"tolerate", .strv "E_FOO", .funv 2⟩] := rfl
example :
    bindAfterExecLCVal "intercept" (.funv 2) .undef []
      = .ok [⟨"intercept", .undef, .funv 2⟩] := rfl
example :
    bindAfterExecLCVal "intercept" (.strv "E_FOO") .undef []
      = .error usageErrNoHandler := rfl
example :
    bindAfterExecLCVal "tolerate" (.numv 3) (.funv 2) []
      = .error usageErrBadRule := rfl

/-- C6 counterexample: the claim says a negotiation rule that is not a
non-empty string throws without registering.  But a plain-dictionary rule is
not a string, and `bindAfterExecLC` accepts it without throwing and registers
it (the unimplemented structured-rule branch, part_001 lines 727-731). -/
theorem C6_counterexample_dictionary_rule_accepted :
    bindAfterExecLCVal "tolerate" (.objv "dictionaryRule" none) (.funv 7) []
        = .ok [⟨"tolerate", .objv "dictionaryRule" none, .funv 7⟩] ∧
      (Val.objv "dictionaryRule" none).isString = false :=
  ⟨rfl, rfl⟩

/-- C6 (amended): malformed usage fails fast with a synchronously thrown
usage error, leaving state unchanged: `.exec()` with a non-callable (or
absent) callback throws a UsageError, does not invoke the work function, does
not invoke the consumer callback and leaves the Deferred state (including
`hasBegunExecuting`) untouched; `.intercept()` without a handler function
throws; and a negotiation rule that is neither a non-empty string nor a plain
dictionary (non-array, non-function object) throws without registering a rule
— plain-dictionary rules are accepted and registered as-is (reserved for the
unimplemented structured matchers). -/
theorem C6_usage_validation_amended (d : Nat) (t : Option Int)
    (st : DeferredState) (cb : Val) (cbT : List Val → Option Val)
    (w : WorkSyncBehavior) (a1 r : Val) (k : Nat) (lc tag : String)
    (c : Option Val) (regs : List LCReg)
    (hcb : cb.isFunction = false)
    (ha1 : a1.isFunction = false)
    (hr1 : r.isUndef = false) (hr2 : (r.isString && r.truthy) = false)
    (hr3 : (r.isObject && !r.isArray && !r.isFunction) = false) :
    ((execModel d t st cb cbT w).st = st ∧
      (execModel d t st cb cbT w).workInvoked = false ∧
      (execModel d t st cb cbT w).calls = [] ∧
      ∃ er, (execModel d t st cb cbT w).thrown = some er ∧
        er.nameOf = "UsageError") ∧
      bindAfterExecLCVal "intercept" a1 .undef regs
        = .error usageErrNoHandler ∧
      bindAfterExecLCVal lc r (.funv k) regs = .error usageErrBadRule ∧
      bindAfterExecLCVal lc (.objv tag c) (.funv k) regs
        = .ok (regs ++ [⟨lc, .objv tag c, .funv k⟩]) := by
  refine ⟨?_, ?_, ?_, rfl⟩
  · cases cb <;>
      simp_all [execModel, Val.isFunction, Val.isUndef, Val.isArray,
        Val.isObject, usageErrNoCallback, usageErrSwitchback,
        usageErrBadCallback, Val.nameOf]
  · simp [bindAfterExecLCVal, ha1, Val.isUndef]
  · simp [bindAfterExecLCVal, hr1, hr2, hr3, isFunction_funv, isUndef_funv]

theorem C6_usage_validation_amended_witness :
    (execModel 0 none {} (.numv 5) (fun _ => none) ⟨[], none⟩).workInvoked
        = false ∧
      (execModel 0 none {} (.numv 5) (fun _ => none) ⟨[], none⟩).st
        = ({} : DeferredState) ∧
      bindAfterExecLCVal "intercept" (.strv "E_FOO") .undef []
        = .error usageErrNoHandler ∧
      bindAfterExecLCVal "tolerate" (.numv 3) (.funv 2) []
        = .error usageErrBadRule := by
  have h := C6_usage_validation_amended 0 none {} (.numv 5) (fun _ => none)
    ⟨[], none⟩ (.strv "E_FOO") (.numv 3) 2 "tolerate" "rule" none []
    rfl rfl rfl rfl rfl
  exact ⟨h.1.2.1, h.1.1, h.2.1, h.2.2.1⟩

lemma Val.truthy_of_isError (v : Val) (h : v.isError = true) :
    v.truthy = true := by
  cases v <;> simp_all [Val.isError, Val.truthy]

lemma truthy_undef : Val.undef.truthy = false := rfl

lemma isUndef_undef : Val.undef.isUndef = true := rfl

lemma eq_undef_of_isUndef (v : Val) (h : v.isUndef = true) : v = .undef := by
  cases v <;> simp_all [Val.isUndef]

lemma truthy_normalizeErr (e : Val) : (normalizeErr e).truthy = true := by
  unfold normalizeErr
  split
  · next h => exact Val.truthy_of_isError _ h
  · split
    · next h =>
      have hc : e.causeOf.isError = true := by
        simp only [Bool.and_eq_true] at h
        exact h.2
      exact Val.truthy_of_isError _ hc
    · split
      · rfl
      · rfl

/-- The UsageError thrown by `.now()` when the work turns out not to be
synchronous (part_001 lines 865-874): name `UsageError`, code
`E_NOT_SYNCHRONOUS`, and a `traceRef` back-reference to this Deferred.
Message abbreviated to its first line. -/
def notSynchronousError (d : Nat) : Val :=
  .errv "UsageError"
    "Failed to call this function synchronously with .now() because it is not actually synchronous."
    "E_NOT_SYNCHRONOUS" none (some d)

/-- Observable outcome of one `.now()` call: the value it throws (if any),
the value it returns (if it returns), and the resulting Deferred state. -/
structure NowOutcome where
  thrown : Option Val
  returned : Option Val
  st : DeferredState

/-- One call to `.now()` on a fresh Deferred (part_001 lines 844-883):
execute with a recording callback (which never throws); propagate anything
`.exec()` itself threw; if the recording callback never ran, set
`_skipImplSpinlockWarning` and throw the `E_NOT_SYNCHRONOUS` usage error; if
the recorded error is truthy, rethrow it; otherwise return the recorded
result. -/
def nowModel (d : Nat) (t : Option Int) (w : WorkSyncBehavior) : NowOutcome :=
  let o := execModel d t {} (.funv 0) (fun _ => none) w
  match o.thrown with
  | some v => { thrown := some v, returned := none, st := o.st }
  | none =>
    match o.calls.getLast? with
    | none =>
      { thrown := some (notSynchronousError d), returned := none,
        st := { o.st with skipImplSpinlockWarning := true } }
    | some args =>
      let err := args.getD 0 .undef
      let res := args.getD 1 .undef
      if err.truthy then { thrown := some err, returned := none, st := o.st }
      else { thrown := none, returned := some res, st := o.st }

lemma handleSignal_warned_of_not_finished (st : DeferredState) (e r : Val)
    (ex : List Val) (hf : st.hasFinishedExecuting = false) :
    (handleSignal st e r ex).warned = false := by
  simp only [handleSignal, hf, Bool.false_and]
  repeat' first
    | rfl
    | simp
    | split

lemma handleSignal_warned_of_skip (st : DeferredState) (e r : Val)
    (ex : List Val) (hs : st.skipImplSpinlockWarning = true) :
    (handleSignal st e r ex).warned = false := by
  simp only [handleSignal, hs, Bool.not_true, Bool.and_false]
  repeat' first
    | rfl
    | simp
    | split

lemma handleSignal_preserves_skip (st : DeferredState) (e r : Val)
    (ex : List Val) :
    (handleSignal st e r ex).st.skipImplSpinlockWarning
      = st.skipImplSpinlockWarning := by
  simp only [handleSignal]
  repeat' first
    | rfl
    | split

/-- C9: `.now()` on a Deferred whose work invokes its completion signal
before `.exec()` returns either returns the result value directly or, when
the work reported a truthy error, synchronously rethrows the normalized
error; `.now()` on a Deferred whose work has not completed by the time
`.exec()` returns throws a UsageError with code `E_NOT_SYNCHRONOUS` and sets
`_skipImplSpinlockWarning`, so that the eventual real completion of the work
(and any duplicate after it) produces no duplicate-completion diagnostic. -/
theorem C9_now_semantics (d : Nat) (t : Option Int) (eS r eF rF e1 r1 e2 r2 : Val)
    (ex1 ex2 : List Val) (hS : eS.truthy = false) (hF : eF.truthy = true) :
    ((nowModel d t ⟨[(eS, r, [])], none⟩).returned = some r ∧
      (nowModel d t ⟨[(eS, r, [])], none⟩).thrown = none) ∧
      ((nowModel d t ⟨[(eF, rF, [])], none⟩).thrown = some (normalizeErr eF) ∧
        (nowModel d t ⟨[(eF, rF, [])], none⟩).returned = none) ∧
      ((nowModel d t ⟨[], none⟩).thrown = some (notSynchronousError d) ∧
        (notSynchronousError d).nameOf = "UsageError" ∧
        (notSynchronousError d).codeOf = "E_NOT_SYNCHRONOUS" ∧
        (nowModel d t ⟨[], none⟩).st.skipImplSpinlockWarning = true ∧
        (nowModel d t ⟨[], none⟩).returned = none) ∧
      (handleSignal (nowModel d t ⟨[], none⟩).st e1 r1 ex1).warned = false ∧
      (handleSignal
        (handleSignal (nowModel d t ⟨[], none⟩).st e1 r1 ex1).st
        e2 r2 ex2).warned = false := by
  have hasync :
      (nowModel d t ⟨[], none⟩).st
        = ⟨true, false, false, true, armTimer t, some true⟩ := by
    simp [nowModel, execModel, runSyncSignals, isUndef_funv, isFunction_funv]
  refine ⟨?_, ?_, ?_, ?_, ?_⟩
  · cases hr : r.isUndef
    · simp [nowModel, execModel, runSyncSignals, handleSignal,
        isUndef_funv, isFunction_funv, hS, hr, truthy_undef]
    · have hru : r = .undef := eq_undef_of_isUndef r hr
      subst hru
      simp [nowModel, execModel, runSyncSignals, handleSignal,
        isUndef_funv, isFunction_funv, isUndef_undef, hS, truthy_undef]
  · simp [nowModel, execModel, runSyncSignals, handleSignal,
      isUndef_funv, isFunction_funv, hF, truthy_normalizeErr]
  · simp [nowModel, execModel, runSyncSignals, isUndef_funv, isFunction_funv,
      notSynchronousError, Val.nameOf, Val.codeOf]
  · rw [hasync]
    exact handleSignal_warned_of_not_finished _ e1 r1 ex1 rfl
  · rw [hasync]
    exact handleSignal_warned_of_skip _ e2 r2 ex2
      ((handleSignal_preserves_skip _ e1 r1 ex1).trans rfl)

theorem C9_now_semantics_witness :
    (nowModel 0 none ⟨[(.undef, .numv 42, [])], none⟩).returned
        = some (.numv 42) ∧
      (nowModel 0 none ⟨[(.strv "boom", .undef, [])], none⟩).thrown
        = some (normalizeErr (.strv "boom")) ∧
      (nowModel 0 none ⟨[], none⟩).thrown = some (notSynchronousError 0) ∧
      (nowModel 0 none ⟨[], none⟩).st.skipImplSpinlockWarning = true := by
  have h := C9_now_semantics 0 none .undef (.numv 42) (.strv "boom") .undef
    .undef .undef .undef .undef [] [] rfl rfl
  exact ⟨h.1.1, h.2.1.1, h.2.2.1.1, h.2.2.1.2.2.2.1⟩

/-- The promise-related state of a Deferred: the memoized promise (identified
by the object identity it was created with), how many times promise creation
has begun executing the Deferred, and a counter supplying distinct identities
for newly created promise objects. -/
structure PromiseCell where
  promise : Option Nat := none
  execStarts : Nat := 0
  freshId : Nat := 0
  deriving Repr, DecidableEq

/-- Model of `.toPromise()` (part_001 lines 809-832): return the cached promise when
one exists; otherwise build the promise — which begins executing the Deferred
through the promisified `.exec()`, counted by `execStarts` — cache it as
`_promise`, and return it. -/
def toPromise (s : PromiseCell) : PromiseCell × Nat :=
  match s.promise with
  | some p => (s, p)
  | none =>
    ({ promise := some s.freshId, execStarts := s.execStarts + 1,
        freshId := s.freshId + 1 }, s.freshId)

/-- The three promise-consuming accessors: `.toPromise()` directly, and
`.then()`/`.catch()` (part_001 lines 598-614), each of which first calls
`this.toPromise()` and chains on the promise it returns. -/
inductive PromiseAccess where
  | viaToPromise : PromiseAccess
  | viaThen : PromiseAccess
  | viaCatch : PromiseAccess

/-- Dispatch one promise-consuming accessor; all three obtain their promise
from `toPromise`. -/
def accessPromise (s : PromiseCell) : PromiseAccess → PromiseCell × Nat
  | .viaToPromise => toPromise s
  | .viaThen => toPromise s
  | .viaCatch => toPromise s

/-- Run a sequence of promise accesses, collecting each returned promise. -/
def runPromiseAccesses (s : PromiseCell) :
    List PromiseAccess → PromiseCell × List Nat
  | [] => (s, [])
  | a :: rest =>
    match accessPromise s a with
    | (s', p) =>
      match runPromiseAccesses s' rest with
      | (s'', ps) => (s'', p :: ps)

lemma runPromiseAccesses_cached (s : PromiseCell) (p : Nat)
    (h : s.promise = some p) (ops : List PromiseAccess) :
    runPromiseAccesses s ops = (s, List.replicate ops.length p) := by
  induction ops with
  | nil => rfl
  | cons a rest ih =>
    have hacc : accessPromise s a = (s, p) := by
      cases a <;> simp [accessPromise, toPromise, h]
    simp [runPromiseAccesses, hacc, ih, List.replicate]

/-- C8: the underlying promise is created lazily (a fresh Deferred has no
promise and has never started executing through one) and at most once: the
first access — whether through `.toPromise()`, `.then()` or `.catch()` —
builds and memoizes it, and every access of the whole sequence returns that
identical promise object, with execution begun exactly once. -/
theorem C8_promise_memoized (a : PromiseAccess) (rest : List PromiseAccess) :
    (({} : PromiseCell).promise = none ∧
      ({} : PromiseCell).execStarts = 0) ∧
      (∀ q ∈ (runPromiseAccesses {} (a :: rest)).2,
        q = (accessPromise {} a).2) ∧
      (runPromiseAccesses {} (a :: rest)).1.execStarts = 1 := by
  have hacc : accessPromise {} a
      = (⟨some 0, 1, 1⟩, 0) := by
    cases a <;> simp [accessPromise, toPromise]
  have hrest := runPromiseAccesses_cached ⟨some 0, 1, 1⟩ 0 rfl rest
  refine ⟨⟨rfl, rfl⟩, ?_, ?_⟩
  · intro q hq
    simp only [runPromiseAccesses, hacc, hrest] at hq
    simp only [hacc]
    rcases List.mem_cons.mp hq with h | h
    · exact h
    · exact List.eq_of_mem_replicate h
  · simp [runPromiseAccesses, hacc, hrest]

theorem C8_promise_memoized_witness :
    (∀ q ∈ (runPromiseAccesses {}
        [PromiseAccess.viaThen, PromiseAccess.viaCatch,
          PromiseAccess.viaToPromise]).2,
      q = (accessPromise {} PromiseAccess.viaThen).2) ∧
      (runPromiseAccesses {}
        [PromiseAccess.viaThen, PromiseAccess.viaCatch,
          PromiseAccess.viaToPromise]).1.execStarts = 1 := by
  have h := C8_promise_memoized PromiseAccess.viaThen
    [PromiseAccess.viaCatch, PromiseAccess.viaToPromise]
  exact ⟨h.2.1, h.2.2⟩

/-- The kind of a userland after-exec lifecycle rule. -/
inductive LCKind where
  | intercept : LCKind
  | tolerate : LCKind

/-- A registered lifecycle rule in semantic form: its kind, its optional
string negotiation rule, and its optional handler as a function from the
current (error, result) pair to the replacement value (part_001 lines
751-756 store exactly these three fields). -/
structure LCRule where
  kind : LCKind
  rule : Option String
  handler : Option (Val → Val → Val)

/-- Modelled from the spec: matching of a string negotiation rule against an
error.  The runner of registered rules is not under src/ (part_001 only
registers them); spec §4.3 calls the rule a "matcher identifier" over the
error and spec §8 speaks of errors "tagged" E_FOO/E_BAR, so a rule matches
when it equals the error's `code` or its `name`. -/
def lcMatches (rule : String) (err : Val) : Bool :=
  err.codeOf == rule || err.nameOf == rule

/-- Modelled from the spec: application of one registered lifecycle rule to
the (error, result) pair at completion time.  The runner itself is missing
from src/ (rules are only registered there, part_001 lines 751-756).  Per
spec §4.3 an `intercept` rule unconditionally runs and may replace the error
or (when there is no error) the result — the same shape as the in-src
implementorland final lifecycle callback (part_001 lines 209-216) — while a
`tolerate` rule runs only when there is an error that its match condition
accepts (or unconditionally when no rule was given), in which case the error
is cleared and the handler's return value becomes the result; a missing
`tolerate` handler defuses the error with an undefined result. -/
def applyLC (lc : LCRule) (acc : Val × Val) : Val × Val :=
  let h := lc.handler.getD (fun _ _ => .undef)
  match lc.kind with
  | .intercept =>
    if acc.1.truthy then (h acc.1 acc.2, acc.2)
    else (acc.1, h .undef acc.2)
  | .tolerate =>
    if acc.1.truthy
        && (match lc.rule with | none => true | some s => lcMatches s acc.1)
    then (.undef, h acc.1 acc.2)
    else acc

/-- Modelled from the spec: run the registered rules over the (error, result)
pair in registration order (spec §4.3: "Rules execute in registration
order"). -/
def applyLCs (lcs : List LCRule) (err res : Val) : Val × Val :=
  lcs.foldl (fun acc lc => applyLC lc acc) (err, res)

/-- Registration appends at the end of the rule list, as the `push` in
`bindAfterExecLC` does (part_001 line 752). -/
def registerLC (lcs : List LCRule) (lc : LCRule) : List LCRule := lcs ++ [lc]

/-- Modelled from the spec: at completion time the consumer callback receives
arguments computed from the rule-transformed (error, result) pair, following
the completion signal's argument conventions — so the rules run before the
consumer's callback fires. -/
def consumerArgsAfterLCs (lcs : List LCRule) (err res : Val) : List Val :=
  match applyLCs lcs err res with
  | (e, r) => if e.truthy then [e] else if r.isUndef then [] else [.undef, r]

/-- C2: registered rules run in registration order before the consumer's
callback fires (appending a rule post-composes its application; splitting the
list composes the runs); an `intercept` rule's handler always runs — on an
error it may replace the error, otherwise it may replace the result; a
`tolerate` rule's handler runs only when its match rule matches the error (or
unconditionally when none was given); and a registered `tolerate` rule whose
match condition does not match the actual error leaves the (error, result)
pair — and hence the error the consumer receives — unchanged. -/
theorem C2_lifecycle_rules (l1 l2 lcs : List LCRule) (lc : LCRule)
    (f g : Val → Val → Val) (s : String) (err res : Val)
    (hT : err.truthy = true) (hM : lcMatches s err = false) :
    (∀ e0 r0 : Val, applyLCs (l1 ++ l2) e0 r0
        = applyLCs l2 (applyLCs l1 e0 r0).1 (applyLCs l1 e0 r0).2) ∧
      (∀ e0 r0 : Val, applyLCs (registerLC lcs lc) e0 r0
        = applyLC lc (applyLCs lcs e0 r0)) ∧
      applyLCs [⟨.intercept, none, some f⟩] err res = (f err res, res) ∧
      (∀ e0 r0 : Val, e0.truthy = false →
        applyLCs [⟨.intercept, none, some f⟩] e0 r0 = (e0, f .undef r0)) ∧
      applyLCs [⟨.tolerate, none, some g⟩] err res = (.undef, g err res) ∧
      applyLCs [⟨.tolerate, some s, some g⟩] err res = (err, res) ∧
      consumerArgsAfterLCs [⟨.tolerate, some s, some g⟩] err res = [err] := by
  refine ⟨?_, ?_, ?_, ?_, ?_, ?_, ?_⟩
  · intro e0 r0
    simp [applyLCs, List.foldl_append]
  · intro e0 r0
    simp [applyLCs, registerLC, List.foldl_append]
  · simp [applyLCs, applyLC, hT]
  · intro e0 r0 h0
    simp [applyLCs, applyLC, h0]
  · simp [applyLCs, applyLC, hT]
  · simp [applyLCs, applyLC, hT, hM]
  · simp [consumerArgsAfterLCs, applyLCs, applyLC, hT, hM]

theorem C2_lifecycle_rules_witness :
    applyLCs [⟨.intercept, none, some (fun e _ => e)⟩]
        (.errv "Error" "m" "E_FOO" none none) (.numv 1)
      = (.errv "Error" "m" "E_FOO" none none, .numv 1) ∧
      applyLCs
          [⟨.tolerate, some "E_FOO",
            some (fun _ _ => .strv "handled")⟩]
          (.errv "Error" "m" "E_BAR" none none) (.numv 1)
        = (.errv "Error" "m" "E_BAR" none none, .numv 1) ∧
      consumerArgsAfterLCs
          [⟨.tolerate, some "E_FOO",
            some (fun _ _ => .strv "handled")⟩]
          (.errv "Error" "m" "E_BAR" none none) (.numv 1)
        = [.errv "Error" "m" "E_BAR" none none] := by
  have h := C2_lifecycle_rules [] [] [] ⟨.tolerate, none, none⟩
    (fun e _ => e) (fun _ _ => .strv "handled") "E_FOO"
    (.errv "Error" "m" "E_BAR" none none) (.numv 1) rfl rfl
  have h2 := C2_lifecycle_rules [] [] [] ⟨.tolerate, none, none⟩
    (fun e _ => e) (fun _ _ => .strv "handled") "E_X"
    (.errv "Error" "m" "E_FOO" none none) (.numv 1) rfl rfl
  exact ⟨h2.2.2.1, h.2.2.2.2.2.1, h.2.2.2.2.2.2⟩
